import Mathlib

/-!
Verification of the asynchronous logger core of the `logger` package.

The Go source is shallowly embedded:
* `Color` values are the literal ANSI escape strings from the source.
* `LogLevel` is `Int` (Go: `type LogLevel int`), with the `iota` constants
  `LevelDebug = 0 … LevelPrint = 5`.
* The worker goroutine `run` becomes a pure function from the list of
  messages sitting in the channel to the list of lines written to the sink
  together with the exit status recorded by `os.Exit(1)` on the Fatal path;
  processing stops there, exactly as the process does.
* The `Logger` struct becomes a Lean structure carrying the channel buffer
  contents, its capacity, the `closed` flag, the `done` signal and the sink
  transcript; a blocking channel send becomes a `SendResult` step that is
  either `ok`, `blocked` (the caller waits) or `panicked` (send on a closed
  channel).
* `strings.ReplaceAll` is embedded as a fuel-indexed structural recursion on
  the character list (left-to-right, non-overlapping); every pattern in the
  highlight table is nonempty, so the fuel `s.length` is always sufficient.
  Go iterates the `highlights` map in unspecified order; the embedding fixes
  the source's textual order.  The per-line module/timestamp prefix added by
  the wrapped `log.Logger` is kept as the `pfx`/`flags` fields; the sink
  transcript records the formatted message part of each line.
-/

set_option maxRecDepth 20000

namespace GoLogger

/-- Go: `type Color string` — ANSI escape sequences. -/
abbrev Color := String

def Reset : Color := "\x1b[0m"

def Red : Color := "\x1b[31m"

def Green : Color := "\x1b[32m"

def Yellow : Color := "\x1b[33m"

def Blue : Color := "\x1b[34m"

def Purple : Color := "\x1b[35m"

def Magenta : Color := "\x1b[35m"

def Grey : Color := "\x1b[90m"

def Cyan : Color := "\x1b[36m"

/-- The highlight keyword table, in the source's textual order
(Go iterates the map in unspecified order; for the inputs considered here
the result does not depend on the order). -/
def highlights : List (String × Color) :=
  [("OK", Green), ("ERROR", Red), ("FAIL", Red),
   ("GET", Blue), ("POST", Cyan), ("PUT", Yellow), ("DELETE", Purple),
   ("PATCH", Magenta), ("OPTIONS", Cyan), ("HEAD", Blue)]

/-- Go: `type LogLevel int`. -/
abbrev LogLevel := Int

def LevelDebug : LogLevel := 0

def LevelInfo : LogLevel := 1

def LevelWarn : LogLevel := 2

def LevelError : LogLevel := 3

def LevelFatal : LogLevel := 4

def LevelPrint : LogLevel := 5

/-- Go: `logMessage` — the value sent over the channel. -/
structure logMessage where
  level : LogLevel
  msg : String
deriving DecidableEq

/-- `strings.ReplaceAll` on character lists: scan left to right, replace each
non-overlapping occurrence of `pat` by `rep`.  The first argument is fuel,
instantiated with the length of the scanned list; one character is consumed
per step, so the fuel never runs out when `pat` is nonempty. -/
def replaceAllAux (pat rep : List Char) : Nat → List Char → List Char
  | _, [] => []
  | 0, s => s
  | fuel + 1, c :: s =>
    if pat.isPrefixOf (c :: s) then
      rep ++ replaceAllAux pat rep fuel ((c :: s).drop pat.length)
    else
      c :: replaceAllAux pat rep fuel s

/-- Go: `strings.ReplaceAll(s, pat, rep)`. -/
def stringReplaceAll (s pat rep : String) : String :=
  String.mk (replaceAllAux pat.toList rep.toList s.toList.length s.toList)

/-- Go: `colorString` — replaces every highlight keyword `w` by
`color ++ w ++ Reset`. -/
def colorString (s : String) : String :=
  highlights.foldl (fun acc p => stringReplaceAll acc p.1 (p.2 ++ p.1 ++ Reset)) s

/-- The per-message formatting done by the `switch` in `run`
(`fmt.Sprintf("%s[INFO]%s %s", Blue, Reset, m.msg)` and friends; the
`LevelPrint` arm highlights keywords, the `default` arm passes the raw text
behind a reset code). -/
def formatMessage (m : logMessage) : String :=
  if m.level = LevelInfo then Blue ++ "[INFO]" ++ Reset ++ " " ++ m.msg
  else if m.level = LevelWarn then Yellow ++ "[WARN]" ++ Reset ++ " " ++ m.msg
  else if m.level = LevelError then Red ++ "[ERROR]" ++ Reset ++ " " ++ m.msg
  else if m.level = LevelDebug then Grey ++ "[DEBUG]" ++ Reset ++ " " ++ m.msg
  else if m.level = LevelFatal then Red ++ "[FATAL]" ++ Reset ++ " " ++ m.msg
  else if m.level = LevelPrint then Reset ++ colorString m.msg
  else Reset ++ m.msg

/-- Result of the worker loop: the lines written to the sink, and `some 1`
when `os.Exit(1)` was reached (the Fatal arm), `none` when the loop drained
the channel and closed `done`. -/
structure RunResult where
  output : List String
  exited : Option Int
deriving DecidableEq

/-- Go: `run` — the worker goroutine.  It consumes the buffered messages in
FIFO order; a message with `level < maxLogLevel` is skipped; a surviving
`LevelFatal` message is written and then the process exits with status 1,
leaving the rest of the queue unconsumed; every other surviving message is
written and the loop continues. -/
def run (maxLogLevel : LogLevel) : List logMessage → RunResult
  | [] => ⟨[], none⟩
  | m :: ms =>
    if m.level < maxLogLevel then run maxLogLevel ms
    else if m.level = LevelFatal then ⟨[formatMessage m], some 1⟩
    else ⟨formatMessage m :: (run maxLogLevel ms).output, (run maxLogLevel ms).exited⟩

/-- An opaque output destination (Go: an `io.Writer`); `stdout` is
`os.Stdout`, `custom id` stands for any other writer passed to `New`. -/
inductive Writer where
  | stdout
  | custom (id : Nat)
deriving DecidableEq

/-- Go: `log.LstdFlags = Ldate | Ltime = 3`. -/
def LstdFlags : Nat := 3

/-- Go: the `Logger` struct.  `out`, `pfx` and `flags` are the state of the
wrapped `log.Logger`; `queue` is the current contents of the buffered channel
`logCh` and `capacity` its buffer size; `queueClosed` records `close(logCh)`;
`done` records `close(lg.done)`; `workerStarted` records that `New` launched
`go lg.run()`; `sinkOutput` is the transcript of formatted messages the
worker has written to the sink. -/
structure Logger where
  out : List Writer
  pfx : String
  flags : Nat
  queue : List logMessage
  capacity : Nat
  queueClosed : Bool
  done : Bool
  closed : Bool
  printTime : Bool
  maxLogLevel : LogLevel
  color : Color
  module : String
  workerStarted : Bool
  sinkOutput : List String
deriving DecidableEq

/-- Go: `New` — builds the logger (default threshold `LevelInfo`, timestamps
on, channel capacity 100, output defaulting to `os.Stdout` when no writer is
given) and starts the worker goroutine. -/
def New (module : String) (color : Color) (writers : List Writer) : Logger :=
  { out := if writers.length > 0 then writers else [Writer.stdout]
    pfx := color ++ "[" ++ module ++ "]" ++ Grey ++ " "
    flags := LstdFlags
    queue := []
    capacity := 100
    queueClosed := false
    done := false
    closed := false
    printTime := true
    maxLogLevel := LevelInfo
    color := color
    module := module
    workerStarted := true
    sinkOutput := [] }

/-- Go: `SetLevel`. -/
def Logger.SetLevel (lg : Logger) (level : LogLevel) : Logger :=
  { lg with maxLogLevel := level }

/-- Go: `SetPrintTime`. -/
def Logger.SetPrintTime (lg : Logger) (p : Bool) : Logger :=
  if p then
    { lg with printTime := p
              pfx := lg.color ++ "[" ++ lg.module ++ "]" ++ Grey ++ " "
              flags := LstdFlags }
  else
    { lg with printTime := p, flags := 0 }

/-- Outcome of one attempted channel send (`lg.logCh <- m`):
`ok` — a buffer slot was free and the message was enqueued;
`blocked` — the buffer is full, the caller waits until a slot frees up;
`panicked` — send on a closed channel. -/
inductive SendResult where
  | ok (lg : Logger)
  | blocked
  | panicked
deriving DecidableEq

/-- One attempted send on the buffered channel `logCh`. -/
def Logger.send (lg : Logger) (m : logMessage) : SendResult :=
  if lg.queueClosed then SendResult.panicked
  else if lg.queue.length < lg.capacity then
    SendResult.ok { lg with queue := lg.queue ++ [m] }
  else SendResult.blocked

/-- Go: `Log` — enqueues at the caller-chosen level. -/
def Logger.Log (lg : Logger) (level : LogLevel) (msg : String) : SendResult :=
  lg.send ⟨level, msg⟩

/-- Go: `Info`. -/
def Logger.Info (lg : Logger) (msg : String) : SendResult :=
  lg.send ⟨LevelInfo, msg⟩

/-- Go: `Warn`. -/
def Logger.Warn (lg : Logger) (msg : String) : SendResult :=
  lg.send ⟨LevelWarn, msg⟩

/-- Go: `Error`. -/
def Logger.Error (lg : Logger) (msg : String) : SendResult :=
  lg.send ⟨LevelError, msg⟩

/-- Go: `Debug`. -/
def Logger.Debug (lg : Logger) (msg : String) : SendResult :=
  lg.send ⟨LevelDebug, msg⟩

/-- Go: `Print`. -/
def Logger.Print (lg : Logger) (msg : String) : SendResult :=
  lg.send ⟨LevelPrint, msg⟩

/-- Go: `Fatal` — only enqueues at `LevelFatal`; the exit happens when the
worker consumes the message. -/
def Logger.Fatal (lg : Logger) (msg : String) : SendResult :=
  lg.send ⟨LevelFatal, msg⟩

/-- One iteration of the worker loop: receive the head message from the
channel (freeing its buffer slot), then filter / format / write / exit
exactly as one pass of the `for m := range lg.logCh` body does.  The second
component is `some 1` when this iteration reached `os.Exit(1)`. -/
def Logger.workerStep (lg : Logger) : Logger × Option Int :=
  match lg.queue with
  | [] => (lg, none)
  | m :: rest =>
    if m.level < lg.maxLogLevel then ({ lg with queue := rest }, none)
    else if m.level = LevelFatal then
      ({ lg with queue := rest, sinkOutput := lg.sinkOutput ++ [formatMessage m] }, some 1)
    else
      ({ lg with queue := rest, sinkOutput := lg.sinkOutput ++ [formatMessage m] }, none)

/-- Go: `Close` — on the first call, close the channel and wait on `done`
while the worker drains every buffered message; `none` models the case where
a surviving Fatal message in the queue terminates the process during the
drain, so that `Close` never returns.  Subsequent calls see `closed = true`
and do nothing. -/
def Logger.Close (lg : Logger) : Option Logger :=
  if lg.closed then some lg
  else
    if (run lg.maxLogLevel lg.queue).exited.isSome then none
    else
      some { lg with queueClosed := true
                     queue := []
                     sinkOutput := lg.sinkOutput ++ (run lg.maxLogLevel lg.queue).output
                     done := true
                     closed := true }

/-- The worker loop on an empty (closed) channel writes nothing and closes
`done`. -/
theorem run_nil (t : LogLevel) : run t [] = ⟨[], none⟩ := rfl

/-- Unfolding of one worker-loop iteration. -/
theorem run_cons (t : LogLevel) (m : logMessage) (ms : List logMessage) :
    run t (m :: ms) =
      if m.level < t then run t ms
      else if m.level = LevelFatal then ⟨[formatMessage m], some 1⟩
      else ⟨formatMessage m :: (run t ms).output, (run t ms).exited⟩ := rfl

/-- When no enqueued message both is `LevelFatal` and survives the filter,
the worker writes exactly the surviving messages, formatted, in order, and
exits normally. -/
theorem run_no_fatal (t : LogLevel) (ms : List logMessage)
    (h : ∀ m ∈ ms, ¬(m.level = LevelFatal ∧ t ≤ m.level)) :
    run t ms = ⟨(ms.filter (fun m => decide (t ≤ m.level))).map formatMessage, none⟩ := by
  induction ms with
  | nil => rfl
  | cons m ms ih =>
    have hm := h m (List.mem_cons_self m ms)
    have hms : ∀ m2 ∈ ms, ¬(m2.level = LevelFatal ∧ t ≤ m2.level) :=
      fun m2 hmem => h m2 (List.mem_cons_of_mem _ hmem)
    rw [run_cons, ih hms]
    by_cases hlt : m.level < t
    · simp [hlt, List.filter_cons, not_le.mpr hlt]
    · have hle : t ≤ m.level := not_lt.mp hlt
      have hnf : ¬ m.level = LevelFatal := fun hf => hm ⟨hf, hle⟩
      simp [hlt, hnf, List.filter_cons, hle]

/-- The worker processes a concatenation left to right, provided the left
part does not exit the process. -/
theorem run_append (t : LogLevel) (ms1 ms2 : List logMessage)
    (h : (run t ms1).exited = none) :
    run t (ms1 ++ ms2) =
      ⟨(run t ms1).output ++ (run t ms2).output, (run t ms2).exited⟩ := by
  induction ms1 with
  | nil => simp [run_nil]
  | cons m ms ih =>
    rw [run_cons] at h
    rw [List.cons_append, run_cons, run_cons]
    by_cases hlt : m.level < t
    · simp only [if_pos hlt] at h ⊢
      exact ih h
    · simp only [if_neg hlt] at h ⊢
      by_cases hf : m.level = LevelFatal
      · simp [hf] at h
      · simp only [if_neg hf] at h ⊢
        rw [ih h]
        rfl

/-- If the worker loop exits the process, the status is 1 and some enqueued
message was `LevelFatal` at or above the threshold. -/
theorem run_exited_some (t : LogLevel) (ms : List logMessage)
    (h : (run t ms).exited ≠ none) :
    (run t ms).exited = some 1 ∧ ∃ m ∈ ms, m.level = LevelFatal ∧ t ≤ m.level := by
  induction ms with
  | nil => simp [run_nil] at h
  | cons m ms ih =>
    rw [run_cons] at h ⊢
    by_cases hlt : m.level < t
    · simp only [if_pos hlt] at h ⊢
      obtain ⟨h1, m2, hmem, hprop⟩ := ih h
      exact ⟨h1, m2, List.mem_cons_of_mem _ hmem, hprop⟩
    · simp only [if_neg hlt] at h ⊢
      by_cases hf : m.level = LevelFatal
      · rw [if_pos hf]
        exact ⟨rfl, m, List.mem_cons_self m ms, hf, not_lt.mp hlt⟩
      · simp only [if_neg hf] at h ⊢
        obtain ⟨h1, m2, hmem, hprop⟩ := ih h
        exact ⟨h1, m2, List.mem_cons_of_mem _ hmem, hprop⟩



/-- One worker iteration frees exactly the head buffer slot and leaves the
channel-closed flag and the capacity unchanged. -/
theorem workerStep_fields (lg : Logger) :
    lg.workerStep.1.queue = lg.queue.tail ∧
    lg.workerStep.1.queueClosed = lg.queueClosed ∧
    lg.workerStep.1.capacity = lg.capacity := by
  cases h : lg.queue with
  | nil => simp [Logger.workerStep, h]
  | cons m rest =>
    simp only [Logger.workerStep, h]
    split_ifs <;> simp

/-- Claim C1: for every threshold and every enqueued message (in any queue
whose surviving messages contain no `LevelFatal` one, the only case in which
the loop completes), the message is written to the sink iff its level is
greater than or equal to the threshold; below-threshold messages are
discarded silently by the worker loop. -/
theorem threshold_filtering (t : LogLevel) (ms : List logMessage)
    (h : ∀ m ∈ ms, ¬(m.level = LevelFatal ∧ t ≤ m.level)) :
    (run t ms).output = (ms.filter (fun m => decide (t ≤ m.level))).map formatMessage := by
  rw [run_no_fatal t ms h]

/-- Witness for the threshold-filtering theorem, at the spec §8 scenario
(threshold Warn; messages Info "a", Warn "b", Error "c"). -/
theorem threshold_filtering_witness :
    (run LevelWarn [⟨LevelInfo, "a"⟩, ⟨LevelWarn, "b"⟩, ⟨LevelError, "c"⟩]).output
      = (([⟨LevelInfo, "a"⟩, ⟨LevelWarn, "b"⟩, ⟨LevelError, "c"⟩] : List logMessage).filter
          (fun m => decide (LevelWarn ≤ m.level))).map formatMessage :=
  threshold_filtering LevelWarn _ (by decide)

/-- Claim C2: a consumed `Fatal` message terminates the process with exit
status 1, and the formatted `Fatal` message is written to the sink (as the
last line) before the exit; conversely the `Fatal` level is the only path of
the logger that ever reaches `os.Exit`. -/
theorem fatal_termination :
    (∀ (t : LogLevel) (s : String) (ms : List logMessage),
      t ≤ LevelFatal →
      (∀ m ∈ ms, ¬(m.level = LevelFatal ∧ t ≤ m.level)) →
      (run t (ms ++ [⟨LevelFatal, s⟩])).exited = some 1 ∧
      (run t (ms ++ [⟨LevelFatal, s⟩])).output
        = (ms.filter (fun m => decide (t ≤ m.level))).map formatMessage
            ++ [formatMessage ⟨LevelFatal, s⟩]) ∧
    (∀ (t : LogLevel) (ms : List logMessage),
      (run t ms).exited ≠ none →
      (run t ms).exited = some 1 ∧ ∃ m ∈ ms, m.level = LevelFatal ∧ t ≤ m.level) := by
  constructor
  · intro t s ms ht h
    have hrun1 := run_no_fatal t ms h
    have hx : (run t ms).exited = none := by rw [hrun1]
    have hsingle : run t [⟨LevelFatal, s⟩] = ⟨[formatMessage ⟨LevelFatal, s⟩], some 1⟩ := by
      rw [run_cons]
      rw [if_neg (not_lt.mpr ht), if_pos rfl]
    rw [run_append t ms _ hx, hsingle, hrun1]
    exact ⟨rfl, rfl⟩
  · exact fun t ms h => run_exited_some t ms h

/-- Witness for the fatal-termination theorem at a concrete queue. -/
theorem fatal_termination_witness :
    (run LevelInfo ([] ++ [⟨LevelFatal, "x"⟩])).exited = some 1 ∧
    (run LevelInfo ([] ++ [⟨LevelFatal, "x"⟩])).output
      = (([] : List logMessage).filter (fun m => decide (LevelInfo ≤ m.level))).map formatMessage
          ++ [formatMessage ⟨LevelFatal, "x"⟩] :=
  fatal_termination.1 LevelInfo "x" [] (by decide) (by decide)


/-- Claim C3: `Close` is idempotent — composing it with itself is the same
step; on a not-yet-closed logger it closes the queue, drains every
previously enqueued message (writing each message at or above the threshold
to the sink) and waits for the `done` signal, and every subsequent call is a
no-op returning the logger unchanged. -/
theorem close_idempotent_drain :
    (∀ lg : Logger, Option.bind lg.Close Logger.Close = lg.Close) ∧
    (∀ lg : Logger, lg.closed = false →
      (∀ m ∈ lg.queue, ¬(m.level = LevelFatal ∧ lg.maxLogLevel ≤ m.level)) →
      lg.Close = some { lg with queueClosed := true
                                queue := []
                                sinkOutput := lg.sinkOutput
                                  ++ (lg.queue.filter
                                        (fun m => decide (lg.maxLogLevel ≤ m.level))).map formatMessage
                                done := true
                                closed := true } ∧
      ∀ lg2, lg.Close = some lg2 → lg2.Close = some lg2) := by
  constructor
  · intro lg
    by_cases hc : lg.closed
    · simp [Logger.Close, hc]
    · by_cases hx : (run lg.maxLogLevel lg.queue).exited.isSome
      · simp [Logger.Close, hc, hx]
      · simp [Logger.Close, hc, hx]
  · intro lg hc h
    have hrun := run_no_fatal lg.maxLogLevel lg.queue h
    have hcl : lg.Close = some { lg with queueClosed := true
                                         queue := []
                                         sinkOutput := lg.sinkOutput
                                           ++ (lg.queue.filter
                                                 (fun m => decide (lg.maxLogLevel ≤ m.level))).map formatMessage
                                         done := true
                                         closed := true } := by
      simp [Logger.Close, hc, hrun]
    refine ⟨hcl, ?_⟩
    intro lg2 h2
    rw [hcl] at h2
    injection h2 with h3
    rw [← h3]
    simp [Logger.Close]

/-- Witness for the close theorem at a concrete logger holding one Error
message. -/
theorem close_idempotent_drain_witness :
    Logger.Close { New "m" Red [] with queue := [⟨LevelError, "e"⟩] }
      = some { { New "m" Red [] with queue := [⟨LevelError, "e"⟩] } with
          queueClosed := true
          queue := []
          sinkOutput := ({ New "m" Red [] with queue := [⟨LevelError, "e"⟩] } : Logger).sinkOutput
            ++ (({ New "m" Red [] with queue := [⟨LevelError, "e"⟩] } : Logger).queue.filter
                  (fun m => decide (({ New "m" Red [] with
                    queue := [⟨LevelError, "e"⟩] } : Logger).maxLogLevel ≤ m.level))).map formatMessage
          done := true
          closed := true } :=
  (close_idempotent_drain.2 { New "m" Red [] with queue := [⟨LevelError, "e"⟩] } rfl (by decide)).1

/-- Claim C4: the worker consumes the enqueued messages in FIFO order: the
sink transcript is a prefix of the formatted filter-surviving messages in
exactly the enqueue order, with no reordering across levels. -/
theorem fifo_ordering (t : LogLevel) (ms : List logMessage) :
    ∃ k, (run t ms).output
      = ((ms.filter (fun m => decide (t ≤ m.level))).map formatMessage).take k := by
  induction ms with
  | nil => exact ⟨0, rfl⟩
  | cons m ms ih =>
    obtain ⟨k, hk⟩ := ih
    rw [run_cons]
    by_cases hlt : m.level < t
    · have hp : decide (t ≤ m.level) = false := decide_eq_false (not_le.mpr hlt)
      exact ⟨k, by simp [if_pos hlt, List.filter_cons, hp, hk]⟩
    · have hp : decide (t ≤ m.level) = true := decide_eq_true (not_lt.mp hlt)
      by_cases hf : m.level = LevelFatal
      · exact ⟨1, by simp [if_neg hlt, if_pos hf, List.filter_cons, hp]⟩
      · exact ⟨k + 1, by simp [if_neg hlt, if_neg hf, List.filter_cons, hp, hk]⟩

/-- Claim C5: the queue is bounded at capacity 100; an enqueue (Log or any
convenience method — they all perform the same channel send) on a full queue
leaves the caller blocked until a worker iteration frees a slot, and an
enqueue on an open channel never panics (no failure observable). -/
theorem backpressure_capacity (lg : Logger) (level : LogLevel) (s : String)
    (hopen : lg.queueClosed = false) (hcap : lg.capacity = 100) :
    (lg.queue.length = 100 → lg.Log level s = SendResult.blocked) ∧
    (lg.queue.length < 100 →
      lg.Log level s = SendResult.ok { lg with queue := lg.queue ++ [⟨level, s⟩] }) ∧
    lg.Log level s ≠ SendResult.panicked ∧
    (lg.queue.length = 100 →
      lg.workerStep.1.Log level s
        = SendResult.ok { lg.workerStep.1 with queue := lg.workerStep.1.queue ++ [⟨level, s⟩] }) ∧
    lg.Info s = lg.Log LevelInfo s := by
  obtain ⟨hq, hqc, hcap2⟩ := workerStep_fields lg
  refine ⟨?_, ?_, ?_, ?_, rfl⟩
  · intro hlen
    simp [Logger.Log, Logger.send, hopen, hcap, hlen]
  · intro hlen
    simp [Logger.Log, Logger.send, hopen, hcap, hlen]
  · by_cases hlen : lg.queue.length < lg.capacity
    · simp [Logger.Log, Logger.send, hopen, hlen]
    · simp [Logger.Log, Logger.send, hopen, hlen]
  · intro hlen
    have hlen2 : lg.workerStep.1.queue.length = 99 := by
      rw [hq, List.length_tail, hlen]
    rw [← hqc] at hopen
    simp [Logger.Log, Logger.send, hopen, hcap2, hcap, hlen2]

/-- Witness for the backpressure theorem at a logger whose queue holds 100
messages. -/
theorem backpressure_capacity_witness :
    Logger.Log { New "m" Red [] with queue := List.replicate 100 ⟨LevelInfo, "x"⟩ } LevelWarn "y"
      = SendResult.blocked :=
  (backpressure_capacity { New "m" Red [] with queue := List.replicate 100 ⟨LevelInfo, "x"⟩ }
      LevelWarn "y" rfl rfl).1 (by simp)

/-- Claim C6: for every module name, color and sink list, `New` returns a
logger with threshold `LevelInfo`, timestamp printing on, queue capacity
100, the worker started as a background task, and an empty sink list
defaulting the output to standard output; construction is total. -/
theorem new_defaults (module : String) (color : Color) (writers : List Writer) :
    (New module color writers).maxLogLevel = LevelInfo ∧
    (New module color writers).printTime = true ∧
    (New module color writers).capacity = 100 ∧
    (New module color writers).workerStarted = true ∧
    (New module color writers).queue = [] ∧
    (New module color writers).closed = false ∧
    (New module color writers).flags = LstdFlags ∧
    (New module color writers).out = (if writers.length > 0 then writers else [Writer.stdout]) :=
  ⟨rfl, rfl, rfl, rfl, rfl, rfl, rfl, rfl⟩

/-- Claim C7: for every message text the formatter produces exactly
`levelColor ++ "[LEVELNAME]" ++ Reset ++ " " ++ text` for the five named
levels (Debug grey, Info blue, Warn yellow, Error red, Fatal red), and for
any level value outside the recognized enumeration it passes the raw text
prefixed only by a reset code with no level tag. -/
theorem formatter_levels (s : String) (l : LogLevel) :
    formatMessage ⟨LevelDebug, s⟩ = Grey ++ "[DEBUG]" ++ Reset ++ " " ++ s ∧
    formatMessage ⟨LevelInfo, s⟩ = Blue ++ "[INFO]" ++ Reset ++ " " ++ s ∧
    formatMessage ⟨LevelWarn, s⟩ = Yellow ++ "[WARN]" ++ Reset ++ " " ++ s ∧
    formatMessage ⟨LevelError, s⟩ = Red ++ "[ERROR]" ++ Reset ++ " " ++ s ∧
    formatMessage ⟨LevelFatal, s⟩ = Red ++ "[FATAL]" ++ Reset ++ " " ++ s ∧
    (l ≠ LevelDebug → l ≠ LevelInfo → l ≠ LevelWarn → l ≠ LevelError → l ≠ LevelFatal →
      l ≠ LevelPrint → formatMessage ⟨l, s⟩ = Reset ++ s) := by
  refine ⟨rfl, rfl, rfl, rfl, rfl, ?_⟩
  intro h0 h1 h2 h3 h4 h5
  simp [formatMessage, h0, h1, h2, h3, h4, h5]

/-- Witness for the formatter theorem at the unrecognized level 99. -/
theorem formatter_levels_witness :
    formatMessage ⟨(99 : Int), "hi"⟩ = Reset ++ "hi" :=
  (formatter_levels "hi" 99).2.2.2.2.2 (by decide) (by decide) (by decide) (by decide)
    (by decide) (by decide)

/-- Claim C8: highlighting the Print-level input `"status OK, method GET"`
wraps `OK` in the green escape code and `GET` in the blue escape code, each
immediately followed by a reset code, and leaves the rest unchanged. -/
theorem highlight_substitution :
    colorString "status OK, method GET"
      = "status " ++ Green ++ "OK" ++ Reset ++ ", method " ++ Blue ++ "GET" ++ Reset := by
  decide

/-- Claim C9: a Print-level message is never discarded by the level filter:
for every threshold in the enumeration (`LevelDebug ≤ t ≤ LevelPrint`) a
`LevelPrint` message passes the filter and is written to the sink as raw
highlighted output behind a reset code. -/
theorem print_level_unfiltered (t : LogLevel) (s : String)
    (_h0 : LevelDebug ≤ t) (h5 : t ≤ LevelPrint) :
    (run t [⟨LevelPrint, s⟩]).output = [formatMessage ⟨LevelPrint, s⟩] ∧
    formatMessage ⟨LevelPrint, s⟩ = Reset ++ colorString s := by
  refine ⟨?_, rfl⟩
  have hL : (⟨LevelPrint, s⟩ : logMessage).level = LevelPrint := rfl
  rw [run_cons, hL, if_neg (not_lt.mpr h5),
    if_neg (by decide : ¬(LevelPrint = LevelFatal))]
  rfl

/-- Witness for the Print-level theorem at threshold `LevelPrint`. -/
theorem print_level_unfiltered_witness :
    (run LevelPrint [⟨LevelPrint, "ok"⟩]).output = [formatMessage ⟨LevelPrint, "ok"⟩] ∧
    formatMessage ⟨LevelPrint, "ok"⟩ = Reset ++ colorString "ok" :=
  print_level_unfiltered LevelPrint "ok" (by decide) (by decide)

/-- Claim C10: Fatal messages are subject to the same threshold filter:
with the threshold set to `LevelPrint`, a message enqueued via `Fatal` is
silently discarded — nothing is written and the process does not terminate —
and in general consuming a `Fatal` message exits the process iff
`LevelFatal` meets or exceeds the threshold. -/
theorem fatal_filtered_by_print_threshold (s : String) :
    (run LevelPrint [⟨LevelFatal, s⟩]).output = [] ∧
    (run LevelPrint [⟨LevelFatal, s⟩]).exited = none ∧
    ∀ t : LogLevel, ((run t [⟨LevelFatal, s⟩]).exited = some 1 ↔ t ≤ LevelFatal) := by
  refine ⟨rfl, rfl, ?_⟩
  intro t
  constructor
  · intro h
    rw [run_cons] at h
    by_cases hlt : (⟨LevelFatal, s⟩ : logMessage).level < t
    · rw [if_pos hlt, run_nil] at h
      simp at h
    · exact not_lt.mp hlt
  · intro h
    rw [run_cons, if_neg (not_lt.mpr h), if_pos rfl]

end GoLogger

